import Mathlib

/-!
Shallow embedding of the bhive data-processing pipeline
(process_bhive_data.py) and proofs about its behaviour.

The script reads CSV rows, filters them against a bad-block set, runs two
external tools (a disassembler and a tokenizer) on each surviving block,
collects the resulting records batch-by-batch through a process pool, and
saves the dataset.  The external collaborators (the Python float builtin
and the two executables) are modelled as injected deterministic oracles,
following the design note that tool invocation is an injectable interface.
-/

namespace BHive

/-- A raw CSV row: a list of string fields (csv.reader output). -/
abbrev Row := List String

/-- Outcome of spawning one of the external tools via subprocess.Popen:
either the process ran and returned an exit code and standard output
(already decoded), or the executable was missing (OSError with ENOENT),
or some other OSError occurred. -/
inductive ToolOutcome where
  | run (exitCode : Int) (stdout : String)
  | notFound
  | osError
deriving DecidableEq, Repr

/-- The external collaborators of the pipeline, injected as deterministic
oracles: the Python float builtin used at line 104, the disassembler
process of disassemble_block, and the tokenizer process of
tokenize_block. -/
structure Env where
  pyFloat : String → Option ℚ
  disasmTool : String → ToolOutcome
  tokenizerTool : String → ToolOutcome

/-- A fully built data tuple, as returned by process_block (lines
121-126): (code_id, timing, code_intel, code_xml).  The throughput is a
parsed numeric value; it is modelled as a rational since the pipeline
never computes with it. -/
structure Record where
  code_id : String
  timing : ℚ
  code_intel : String
  code_xml : String
deriving DecidableEq, Repr

/-- The whitespace characters stripped by the Python str.strip method. -/
def pySpace (c : Char) : Bool :=
  c == ' ' || c == '\t' || c == '\n' || c == '\x0d' || c == '\x0b' || c == '\x0c'

/-- Python str.strip: remove leading and trailing whitespace. -/
def pyStrip (s : String) : String :=
  String.mk (((s.data.dropWhile pySpace).reverse.dropWhile pySpace).reverse)

/-- One diagnostic message printed by the pipeline.  The constructors
carry the data interpolated into the printed format strings; diagText
renders each to the literal message of the source. -/
inductive Diag where
  | errorDisassembling (block_id : String)
  | errorRunningDisasm
  | errorTokenizing (block_id : String)
  | tokenizerNotFoundHint
  | tokenizerBuildCmd
  | oserrTokenizing (block_id : String)
  | floatParseWarning (tpRaw block_id : String)
deriving DecidableEq, Repr

/-- Rendering of each diagnostic to the message text printed by the
source (the trailing exception payload of some messages is omitted, as
it is opaque data of the Python runtime). -/
def diagText : Diag → String
  | Diag.errorDisassembling block_id => "Error disassembling block " ++ block_id
  | Diag.errorRunningDisasm => "Error running disasm (command not found?)"
  | Diag.errorTokenizing block_id => "Error tokenizing block " ++ block_id
  | Diag.tokenizerNotFoundHint =>
      "Tokenizer not found. Make sure to build the tokenizer first."
  | Diag.tokenizerBuildCmd =>
      "You might need to run: cd data_collection && mkdir build && cd build && cmake .. && make"
  | Diag.oserrTokenizing block_id => "OSError tokenizing block " ++ block_id
  | Diag.floatParseWarning tpRaw block_id =>
      "Warning: Could not convert throughput " ++ tpRaw ++
        " to float for block_id " ++ block_id ++ ". Skipping."

/-- disassemble_block (lines 46-64): run the disasm tool on the block id;
a non-zero exit code raises CalledProcessError, caught and turned into
None; an OSError (missing executable included) is also turned into None;
on success the decoded stdout is stripped. -/
def disassemble_block (env : Env) (block_id : String) : Option String :=
  match env.disasmTool block_id with
  | ToolOutcome.run exitCode out =>
      if exitCode ≠ 0 then none else some (pyStrip out)
  | ToolOutcome.notFound => none
  | ToolOutcome.osError => none

/-- The messages printed by disassemble_block for each tool outcome.
Both OSError branches print the same message (lines 62-64). -/
def disassemble_block_log (block_id : String) : ToolOutcome → List Diag
  | ToolOutcome.run exitCode _ =>
      if exitCode ≠ 0 then [Diag.errorDisassembling block_id] else []
  | ToolOutcome.notFound => [Diag.errorRunningDisasm]
  | ToolOutcome.osError => [Diag.errorRunningDisasm]

/-- tokenize_block (lines 67-90): same success policy as
disassemble_block, with a dedicated branch for a missing executable. -/
def tokenize_block (env : Env) (block_id : String) : Option String :=
  match env.tokenizerTool block_id with
  | ToolOutcome.run exitCode out =>
      if exitCode ≠ 0 then none else some (pyStrip out)
  | ToolOutcome.notFound => none
  | ToolOutcome.osError => none

/-- The messages printed by tokenize_block for each tool outcome.  A
missing executable (errno ENOENT, lines 84-87) prints the two-line
operator hint; any other OSError prints a generic message. -/
def tokenize_block_log (block_id : String) : ToolOutcome → List Diag
  | ToolOutcome.run exitCode _ =>
      if exitCode ≠ 0 then [Diag.errorTokenizing block_id] else []
  | ToolOutcome.notFound => [Diag.tokenizerNotFoundHint, Diag.tokenizerBuildCmd]
  | ToolOutcome.osError => [Diag.oserrTokenizing block_id]

/-- The transformation stage of process_block (lines 110-126): run both
tools; `if not code_intel` rejects both a None result and an empty
(hence also a whitespace-only) output; a record is built only when both
tools produced a non-empty stripped output. -/
def transform_stage (env : Env) (block_id : String) (throughput : ℚ) : Option Record :=
  match disassemble_block env block_id with
  | none => none
  | some code_intel =>
    if code_intel = "" then none
    else
      match tokenize_block env block_id with
      | none => none
      | some code_xml =>
        if code_xml = "" then none
        else some ⟨block_id, throughput, code_intel, code_xml⟩

/-- process_block (lines 92-126): rows with fewer than two fields are
skipped; a block id in the bad-block set is skipped; a throughput field
that float() rejects is skipped with a warning; otherwise the
transformation stage runs. -/
def process_block (env : Env) (bad_block_ids : List String) (row : Row) : Option Record :=
  match row with
  | block_id :: tpRaw :: _ =>
    if block_id ∈ bad_block_ids then none
    else
      match env.pyFloat tpRaw with
      | none => none
      | some throughput => transform_stage env block_id throughput
  | _ => none

/-- The filtering stage of process_block (lines 94-108), as a decidable
rejection predicate: fewer than two fields, a bad block id, or a
throughput field that fails float parsing. -/
def filter_rejects (env : Env) (bad_block_ids : List String) (row : Row) : Bool :=
  match row with
  | block_id :: tpRaw :: _ =>
      decide (block_id ∈ bad_block_ids) || (env.pyFloat tpRaw).isNone
  | _ => true

/-- The messages printed while processing one row (process_block and the
two tool calls it makes, in program order). -/
def process_block_log (env : Env) (bad_block_ids : List String) (row : Row) : List Diag :=
  match row with
  | block_id :: tpRaw :: _ =>
    if block_id ∈ bad_block_ids then []
    else
      match env.pyFloat tpRaw with
      | none => [Diag.floatParseWarning tpRaw block_id]
      | some _ =>
        let dlog := disassemble_block_log block_id (env.disasmTool block_id)
        match disassemble_block env block_id with
        | none => dlog
        | some code_intel =>
          if code_intel = "" then dlog
          else dlog ++ tokenize_block_log block_id (env.tokenizerTool block_id)
  | _ => []

/-- process_batch (lines 128-135): process every row of the batch in
order, keeping the truthy results (a built record, being a non-empty
tuple, is always truthy; None is falsy). -/
def process_batch (env : Env) (bad_block_ids : List String) : List Row → List Record
  | [] => []
  | row :: rest =>
    match process_block env bad_block_ids row with
    | some r => r :: process_batch env bad_block_ids rest
    | none => process_batch env bad_block_ids rest

/-- batch_size (lines 162-166): the ceiling of total_rows divided by
four times the worker count (computed here in exact arithmetic), then
forced to at least one. -/
def batchSize (total_rows num_processes : Nat) : Nat :=
  let b := (total_rows + 4 * num_processes - 1) / (4 * num_processes)
  if b = 0 then 1 else b

/-- Helper for chunking a list into consecutive slices of size bs,
structurally recursive on a fuel argument (the list length). -/
def chunk_go (bs : Nat) : Nat → List Row → List (List Row)
  | _, [] => []
  | 0, l => [l]
  | fuel + 1, l => l.take bs :: chunk_go bs fuel (l.drop bs)

/-- The batch partition of line 168: consecutive slices
rows[i : i + batch_size] for i = 0, batch_size, 2 batch_size, ... -/
def chunkList (bs : Nat) (l : List Row) : List (List Row) :=
  chunk_go bs l.length l

/-- Python truthiness of the optional row limit (line 153): None and 0
are falsy, every other integer is truthy. -/
def pyTruthyInt : Option Int → Bool
  | none => false
  | some n => decide (n ≠ 0)

/-- Python list slicing rows[:n] (line 154): a non-negative stop keeps
the first n elements; a negative stop counts from the end. -/
def pySliceTo (n : Int) (l : List Row) : List Row :=
  if 0 ≤ n then l.take n.toNat
  else l.take ((l.length : Int) + n).toNat

/-- Lines 153-154: `if limit: rows = rows[:limit]` — the slice is taken
only when the limit is truthy (so a limit of None or 0 keeps all rows). -/
def applyLimit (limit : Option Int) (rows : List Row) : List Row :=
  match limit with
  | none => rows
  | some n => if n ≠ 0 then pySliceTo n rows else rows

/-- The per-batch result lists of one run, in dispatch order (the list
the pool.imap iterator yields, lines 176-187). -/
def batch_results (env : Env) (bad_block_ids : List String) (rows : List Row)
    (limit : Option Int) (num_processes : Nat) : List (List Record) :=
  (chunkList (batchSize (applyLimit limit rows).length num_processes)
      (applyLimit limit rows)).map (process_batch env bad_block_ids)

/-- The dataset computed by process_csv_parallel (lines 137-206) on an
already-read row list: apply the limit, return [] on no rows, partition
into batches, process each batch, and flatten the per-batch results in
dispatch order.  A worker count of zero makes line 164 raise
ZeroDivisionError, caught by the handler at line 202 which returns []. -/
def process_csv_core (env : Env) (bad_block_ids : List String) (rows : List Row)
    (limit : Option Int) (num_processes : Nat) : List Record :=
  if (applyLimit limit rows).length = 0 then []
  else if num_processes = 0 then []
  else (batch_results env bad_block_ids rows limit num_processes).flatten

/-- Default worker count (lines 139-144): cpu_count minus one when more
than one CPU is reported, otherwise one; a cpu_count that raises
NotImplementedError (modelled as none) also gives one. -/
def defaultNumProcesses (cpu_count : Option Nat) : Nat :=
  match cpu_count with
  | none => 1
  | some num_cpus => if 1 < num_cpus then max 1 (num_cpus - 1) else 1

/-- Sequence a fallible per-batch worker over the batch list, stopping
at the first raised exception — the behaviour of consuming the
pool.imap iterator (line 186): results are yielded in dispatch order and
an exception raised inside a batch surfaces when its result is
requested. -/
def map_except {α β : Type} (f : α → Except String β) : List α → Except String (List β)
  | [] => Except.ok []
  | a :: l =>
    match f a with
    | Except.error e => Except.error e
    | Except.ok b =>
      match map_except f l with
      | Except.error e => Except.error e
      | Except.ok bs => Except.ok (b :: bs)

/-- process_csv_parallel with a possibly-raising per-batch worker: an
exception raised in any batch propagates out of the result loop into the
handler at line 202, which logs and returns [] — discarding every
batch result, the already collected ones included. -/
def process_csv_exc (worker : List Row → Except String (List Record))
    (batches : List (List Row)) : List Record :=
  match map_except worker batches with
  | Except.ok collected => collected.flatten
  | Except.error _ => []

/-- The (index, per-batch result) pairs of one run in dispatch order.  A
pool execution completes these in some arbitrary order; any completion
order is a permutation of this list. -/
def indexed (results : List (List Record)) : List (Nat × List Record) :=
  (List.range results.length).map (fun i => (i, results.getD i []))

/-- What the imap iterator delivers to the collector: the result of
batch i is handed over at position i regardless of the order in which
the workers completed the batches. -/
def imap_deliver (n : Nat) (completed : List (Nat × List Record)) : List (List Record) :=
  (List.range n).map (fun i => (completed.lookup i).getD [])

/-- save_dataset (lines 208-228) persists torch.save(dataset[1:], ...):
the records actually written are the dataset minus its first element. -/
def saved_records (dataset : List Record) : List Record :=
  dataset.drop 1

/-- The rational three halves, built structurally so that kernel
evaluation of equality tests never has to normalize. -/
def threeHalves : ℚ := Rat.mk' 3 2 (by decide) (by decide)

/-- A sample oracle environment for concrete evaluations: float parsing
succeeds on the two well-formed literals, both tools exit 0 with
whitespace-padded output. -/
def envEx : Env where
  pyFloat := fun s =>
    if s = "1.5" then some threeHalves else if s = "2.0" then some 2 else none
  disasmTool := fun _ => ToolOutcome.run 0 " mov eax, ebx\n"
  tokenizerTool := fun _ => ToolOutcome.run 0 " xmlblock "

/-- An environment whose tokenizer executable is absent. -/
def envNoTok : Env where
  pyFloat := fun _ => some 1
  disasmTool := fun _ => ToolOutcome.run 0 "asm"
  tokenizerTool := fun _ => ToolOutcome.notFound

/-- The two-row sample input of the spec: one well-formed row and one
row whose throughput field is not numeric. -/
def rowsEx : List Row := [["deadbeef", "1.5"], ["00ff", "abc"]]

/-- The record the pipeline builds from the first sample row under
envEx. -/
def recEx : Record :=
  { code_id := "deadbeef", timing := threeHalves
    code_intel := "mov eax, ebx", code_xml := "xmlblock" }

/-- Sample one-row batches for the batch-level failure scenarios. -/
def batchA : List Row := [["a", "1"]]

/-- Second sample batch. -/
def batchB : List Row := [["b", "1"]]

/-- The record a healthy worker returns for batchB. -/
def recC2 : Record := { code_id := "b", timing := 1, code_intel := "asm", code_xml := "xml" }

/-- A worker that raises on batchA and succeeds on every other batch. -/
def workerEx : List Row → Except String (List Record) :=
  fun b => if b = batchA then Except.error ("boom") else Except.ok [recC2]

/-- A sample completion order that finishes the second batch first. -/
def completedEx : List (Nat × List Record) := [(1, []), (0, [recEx])]

theorem chunk_go_flatten (bs : Nat) :
    ∀ (fuel : Nat) (l : List Row), (chunk_go bs fuel l).flatten = l := by
  intro fuel
  induction fuel with
  | zero =>
    intro l
    cases l with
    | nil => simp [chunk_go]
    | cons a t => simp [chunk_go]
  | succ n ih =>
    intro l
    cases l with
    | nil => simp [chunk_go]
    | cons a t =>
      show ((a :: t).take bs :: chunk_go bs n ((a :: t).drop bs)).flatten = a :: t
      rw [List.flatten_cons, ih, List.take_append_drop]

theorem chunkList_flatten (bs : Nat) (l : List Row) : (chunkList bs l).flatten = l :=
  chunk_go_flatten bs l.length l

theorem process_batch_eq_filterMap (env : Env) (bad : List String) :
    ∀ l : List Row, process_batch env bad l = l.filterMap (process_block env bad) := by
  intro l
  induction l with
  | nil => rfl
  | cons row rest ih =>
    cases h : process_block env bad row with
    | none => simp [process_batch, List.filterMap_cons, h, ih]
    | some r => simp [process_batch, List.filterMap_cons, h, ih]

theorem process_batch_append (env : Env) (bad : List String) (xs ys : List Row) :
    process_batch env bad (xs ++ ys) = process_batch env bad xs ++ process_batch env bad ys := by
  simp [process_batch_eq_filterMap, List.filterMap_append]

theorem flatten_map_process_batch (env : Env) (bad : List String) :
    ∀ parts : List (List Row),
      ((parts.map (process_batch env bad)).flatten) = process_batch env bad parts.flatten := by
  intro parts
  induction parts with
  | nil => rfl
  | cons b t ih => simp [List.flatten_cons, ih, process_batch_append]

theorem applyLimit_none (rows : List Row) : applyLimit none rows = rows := rfl

theorem map_except_error_of_mem {α β : Type} (f : α → Except String β) :
    ∀ (l : List α) (a : α) (e : String), a ∈ l → f a = Except.error e →
      ∃ e2, map_except f l = Except.error e2 := by
  intro l
  induction l with
  | nil =>
    intro a e hmem _
    simp at hmem
  | cons hd tl ih =>
    intro a e hmem hfa
    rcases List.mem_cons.mp hmem with rfl | htl
    · exact ⟨e, by simp [map_except, hfa]⟩
    · cases hf : f hd with
      | error e3 => exact ⟨e3, by simp [map_except, hf]⟩
      | ok b =>
        obtain ⟨e2, he2⟩ := ih a e htl hfa
        exact ⟨e2, by simp [map_except, hf, he2]⟩

theorem map_except_ok_map {α β : Type} (g : α → β) :
    ∀ l : List α, map_except (fun a => Except.ok (g a)) l = Except.ok (l.map g) := by
  intro l
  induction l with
  | nil => rfl
  | cons a t ih => simp [map_except, ih]

theorem lookup_eq_of_nodup_keys {β : Type} :
    ∀ (l : List (Nat × β)) (a : Nat) (b : β),
      (l.map Prod.fst).Nodup → (a, b) ∈ l → l.lookup a = some b := by
  intro l
  induction l with
  | nil =>
    intro a b _ hm
    simp at hm
  | cons hd tl ih =>
    intro a b hnd hm
    obtain ⟨k, v⟩ := hd
    rw [List.map_cons, List.nodup_cons] at hnd
    by_cases hak : a = k
    · subst hak
      rcases List.mem_cons.mp hm with heq | htl
      · cases heq
        simp [List.lookup]
      · exact absurd (List.mem_map_of_mem Prod.fst htl) hnd.1
    · have hbeq : (a == k) = false := beq_eq_false_iff_ne.mpr hak
      rcases List.mem_cons.mp hm with heq | htl
      · exact absurd (congrArg Prod.fst heq) hak
      · simp only [List.lookup, hbeq]
        exact ih a b hnd.2 htl

theorem indexed_map_fst (results : List (List Record)) :
    (indexed results).map Prod.fst = List.range results.length := by
  unfold indexed
  rw [List.map_map]
  exact List.map_id _

theorem mem_indexed (results : List (List Record)) (i : Nat) (hi : i < results.length) :
    (i, results.getD i []) ∈ indexed results :=
  List.mem_map_of_mem _ (List.mem_range.mpr hi)

theorem range_map_getD (l : List (List Record)) :
    (List.range l.length).map (fun i => l.getD i []) = l := by
  apply List.ext_getElem
  · simp
  · intro i h1 h2
    rw [List.getElem_map, List.getElem_range]
    exact List.getD_eq_getElem l [] h2

theorem imap_deliver_eq (l : List (List Record)) (completed : List (Nat × List Record))
    (h : completed.Perm (indexed l)) : imap_deliver l.length completed = l := by
  have hkeys : (completed.map Prod.fst).Nodup := by
    have hp := h.map Prod.fst
    rw [indexed_map_fst] at hp
    exact hp.nodup_iff.mpr (List.nodup_range _)
  have hl : ∀ i, i < l.length → completed.lookup i = some (l.getD i []) := fun i hi =>
    lookup_eq_of_nodup_keys completed i (l.getD i []) hkeys (h.mem_iff.mpr (mem_indexed l i hi))
  have hcongr : ∀ i ∈ List.range l.length, (completed.lookup i).getD [] = l.getD i [] := by
    intro i hi
    rw [hl i (List.mem_range.mp hi)]
    rfl
  unfold imap_deliver
  rw [List.map_congr_left hcongr, range_map_getD]

theorem disassemble_block_eq_some (env : Env) (bid s : String)
    (h : disassemble_block env bid = some s) :
    ∃ out, env.disasmTool bid = ToolOutcome.run 0 out ∧ s = pyStrip out := by
  cases hdt : env.disasmTool bid with
  | run code out =>
    simp only [disassemble_block, hdt] at h
    by_cases hcode : code = 0
    · subst hcode
      rw [if_neg (by simp)] at h
      exact ⟨out, rfl, (Option.some.inj h).symm⟩
    · rw [if_pos hcode] at h
      simp at h
  | notFound =>
    simp [disassemble_block, hdt] at h
  | osError =>
    simp [disassemble_block, hdt] at h

theorem tokenize_block_eq_some (env : Env) (bid s : String)
    (h : tokenize_block env bid = some s) :
    ∃ out, env.tokenizerTool bid = ToolOutcome.run 0 out ∧ s = pyStrip out := by
  cases hdt : env.tokenizerTool bid with
  | run code out =>
    simp only [tokenize_block, hdt] at h
    by_cases hcode : code = 0
    · subst hcode
      rw [if_neg (by simp)] at h
      exact ⟨out, rfl, (Option.some.inj h).symm⟩
    · rw [if_pos hcode] at h
      simp at h
  | notFound =>
    simp [tokenize_block, hdt] at h
  | osError =>
    simp [tokenize_block, hdt] at h

theorem process_block_none_of_tok_absent (env : Env) (bad : List String) (row : Row)
    (h : ∀ bid, env.tokenizerTool bid = ToolOutcome.notFound) :
    process_block env bad row = none := by
  rcases row with _ | ⟨bid, _ | ⟨tp, rest⟩⟩
  · rfl
  · rfl
  · simp only [process_block]
    by_cases hmem : bid ∈ bad
    · simp [hmem]
    · rw [if_neg hmem]
      cases hf : env.pyFloat tp with
      | none => rfl
      | some t =>
        cases hd : disassemble_block env bid with
        | none => simp [transform_stage, hd]
        | some ci =>
          by_cases hci : ci = ""
          · simp [transform_stage, hd, hci]
          · simp [transform_stage, hd, hci, tokenize_block, h bid]

theorem process_batch_eq_nil_of_all_none (env : Env) (bad : List String) (l : List Row)
    (h : ∀ row, process_block env bad row = none) : process_batch env bad l = [] := by
  rw [process_batch_eq_filterMap]
  exact List.filterMap_eq_nil_iff.mpr (fun a _ => h a)

/-- Claim C1 (defect exhibit): on a run whose final in-memory dataset
holds exactly one record, save_dataset persists dataset[1:], so the
serialized output holds zero records even though one RawRow passed
filtering and both transformations — the serialized record count does
not equal the dataset size. -/
theorem c1_save_drops_first_record :
    process_csv_core envEx [] rowsEx none 1 = [recEx] ∧
    (process_csv_core envEx [] rowsEx none 1).length = 1 ∧
    saved_records (process_csv_core envEx [] rowsEx none 1) = [] ∧
    saved_records (process_csv_core envEx [] rowsEx none 1) ≠
      process_csv_core envEx [] rowsEx none 1 :=
  ⟨by decide, by decide, by decide, by decide⟩

/-- Claim C2 counterexample: with a worker that raises on the first
batch and produces a record for the second, the run returns the empty
dataset — the healthy batch contribution is not in the output, so an
exception in one batch does not abort only that batch. -/
theorem c2_batch_abort_counterexample :
    process_csv_exc workerEx [batchA, batchB] = [] ∧
    workerEx batchB = Except.ok [recC2] ∧
    recC2 ∉ process_csv_exc workerEx [batchA, batchB] :=
  ⟨by decide, by rfl, by decide⟩

/-- Claim C2 (amended): an exception raised while processing any batch
propagates out of the result loop into the top-level handler, which
returns an empty dataset — the run does not crash, but every batch
contribution (already-completed ones included) is discarded; when no
batch raises (in particular when each worker runs process_batch, whose
anticipated per-row errors are handled row-locally), all per-batch
results are delivered in dispatch order. -/
theorem c2_batch_error_amended :
    (∀ (worker : List Row → Except String (List Record)) (batches : List (List Row))
        (b : List Row) (e : String), b ∈ batches → worker b = Except.error e →
        process_csv_exc worker batches = []) ∧
    (∀ (env : Env) (bad : List String) (batches : List (List Row)),
        process_csv_exc (fun batch => Except.ok (process_batch env bad batch)) batches =
          (batches.map (process_batch env bad)).flatten) := by
  constructor
  · intro worker batches b e hmem hw
    obtain ⟨e2, he2⟩ := map_except_error_of_mem worker batches b e hmem hw
    simp [process_csv_exc, he2]
  · intro env bad batches
    simp [process_csv_exc, map_except_ok_map]

/-- Witness for the amended C2 theorem at a concrete worker and batch
list. -/
theorem c2_batch_error_amended_witness :
    process_csv_exc workerEx [batchA, batchB] = [] :=
  c2_batch_error_amended.1 workerEx [batchA, batchB] batchA ("boom")
    (List.mem_cons_self batchA [batchB]) (by rfl)

/-- Claim C3: splitting the rows into contiguous batches, processing
each batch independently, and concatenating the per-batch results in
dispatch order yields the dataset obtained by processing the whole row
list as one batch; the final dataset is the input rows in order with
rejected rows omitted. -/
theorem c3_partitioning :
    (∀ (env : Env) (bad : List String) (bs : Nat) (rows : List Row),
        ((chunkList bs rows).map (process_batch env bad)).flatten =
          process_batch env bad rows) ∧
    (∀ (env : Env) (bad : List String) (rows : List Row) (p : Nat), 0 < p →
        process_csv_core env bad rows none p = process_batch env bad rows) ∧
    (∀ (env : Env) (bad : List String) (rows : List Row),
        process_batch env bad rows = rows.filterMap (process_block env bad)) := by
  have hchunk : ∀ (env : Env) (bad : List String) (bs : Nat) (rows : List Row),
      ((chunkList bs rows).map (process_batch env bad)).flatten =
        process_batch env bad rows := by
    intro env bad bs rows
    rw [flatten_map_process_batch, chunkList_flatten]
  refine ⟨hchunk, ?_, fun env bad rows => process_batch_eq_filterMap env bad rows⟩
  intro env bad rows p hp
  by_cases hr : rows = []
  · subst hr
    rfl
  · have h1 : rows.length ≠ 0 := by
      simpa [List.length_eq_zero] using hr
    simp only [process_csv_core, batch_results, applyLimit_none]
    rw [if_neg h1, if_neg (Nat.pos_iff_ne_zero.mp hp)]
    exact hchunk env bad _ rows

/-- Witness for C3 at a concrete environment, row list and worker
count. -/
theorem c3_partitioning_witness :
    process_csv_core envEx [] rowsEx none 1 = process_batch envEx [] rowsEx :=
  c3_partitioning.2.1 envEx [] rowsEx 1 (by decide)

/-- Claim C4: a record is produced for a row only when the row has at
least two fields, the block id passes the bad-block filter, float
parsing succeeds, and both tool invocations exit 0 with output that is
non-empty after stripping (so non-empty and not whitespace-only); the
record four fields are exactly the filtered and transformed data, so no
partially populated record can reach the dataset. -/
theorem c4_record_atomicity :
    ∀ (env : Env) (bad : List String) (row : Row) (rec : Record),
      process_block env bad row = some rec →
      ∃ tpRaw rest out tok,
        row = rec.code_id :: tpRaw :: rest ∧
        rec.code_id ∉ bad ∧
        env.pyFloat tpRaw = some rec.timing ∧
        env.disasmTool rec.code_id = ToolOutcome.run 0 out ∧
        rec.code_intel = pyStrip out ∧ rec.code_intel ≠ "" ∧
        env.tokenizerTool rec.code_id = ToolOutcome.run 0 tok ∧
        rec.code_xml = pyStrip tok ∧ rec.code_xml ≠ "" := by
  intro env bad row rec h
  rcases row with _ | ⟨bid, _ | ⟨tp, rest⟩⟩
  · simp [process_block] at h
  · simp [process_block] at h
  · simp only [process_block] at h
    by_cases hmem : bid ∈ bad
    · simp [hmem] at h
    rw [if_neg hmem] at h
    cases hf : env.pyFloat tp with
    | none => simp [hf] at h
    | some t =>
      rw [hf] at h
      simp only [transform_stage] at h
      cases hd : disassemble_block env bid with
      | none => simp [hd] at h
      | some ci =>
        simp only [hd] at h
        by_cases hci : ci = ""
        · simp [hci] at h
        rw [if_neg hci] at h
        cases ht : tokenize_block env bid with
        | none => simp [ht] at h
        | some cx =>
          simp only [ht] at h
          by_cases hcx : cx = ""
          · simp [hcx] at h
          rw [if_neg hcx] at h
          have hrec : rec = ⟨bid, t, ci, cx⟩ := (Option.some.inj h).symm
          subst hrec
          obtain ⟨out, hdt, hci_eq⟩ := disassemble_block_eq_some env bid ci hd
          obtain ⟨tok, htt, hcx_eq⟩ := tokenize_block_eq_some env bid cx ht
          exact ⟨tp, rest, out, tok, rfl, hmem, hf, hdt, hci_eq, hci, htt, hcx_eq, hcx⟩

/-- Witness for C4: the sample environment builds exactly the expected
record from the sample row, and all success conditions hold for it. -/
theorem c4_record_atomicity_witness :
    ∃ tpRaw rest out tok,
      (["deadbeef", "1.5"] : Row) = recEx.code_id :: tpRaw :: rest ∧
      recEx.code_id ∉ ([] : List String) ∧
      envEx.pyFloat tpRaw = some recEx.timing ∧
      envEx.disasmTool recEx.code_id = ToolOutcome.run 0 out ∧
      recEx.code_intel = pyStrip out ∧ recEx.code_intel ≠ "" ∧
      envEx.tokenizerTool recEx.code_id = ToolOutcome.run 0 tok ∧
      recEx.code_xml = pyStrip tok ∧ recEx.code_xml ≠ "" :=
  c4_record_atomicity envEx [] (["deadbeef", "1.5"] : Row) recEx (by decide)

/-- Claim C5: the filtering stage rejects a row exactly when it has
fewer than two fields, or its block id is in the bad-block set, or its
second field fails float parsing; a rejected row yields no record, a
non-rejected row proceeds to the transformation stage with the parsed
throughput; a parse failure prints a warning diagnostic and removing a
rejected row from a batch leaves the sibling rows results unchanged. -/
theorem c5_filter_rejection :
    (∀ (env : Env) (bad : List String) (row : Row),
        filter_rejects env bad row = true → process_block env bad row = none) ∧
    (∀ (env : Env) (bad : List String) (bid tp : String) (rest : List String),
        filter_rejects env bad (bid :: tp :: rest) = false →
        ∃ t, env.pyFloat tp = some t ∧
          process_block env bad (bid :: tp :: rest) = transform_stage env bid t) ∧
    (∀ (env : Env) (bad : List String) (row : Row),
        row.length < 2 → filter_rejects env bad row = true) ∧
    (∀ (env : Env) (bad : List String) (bid tp : String) (rest : List String),
        filter_rejects env bad (bid :: tp :: rest) =
          (decide (bid ∈ bad) || (env.pyFloat tp).isNone)) ∧
    (∀ (env : Env) (bad : List String) (bid tp : String) (rest : List String),
        bid ∉ bad → env.pyFloat tp = none →
        Diag.floatParseWarning tp bid ∈ process_block_log env bad (bid :: tp :: rest)) ∧
    (∀ (env : Env) (bad : List String) (row : Row) (xs ys : List Row),
        process_block env bad row = none →
        process_batch env bad (xs ++ row :: ys) = process_batch env bad (xs ++ ys)) := by
  refine ⟨?_, ?_, ?_, fun env bad bid tp rest => rfl, ?_, ?_⟩
  · intro env bad row h
    rcases row with _ | ⟨bid, _ | ⟨tp, rest⟩⟩
    · rfl
    · rfl
    · simp only [filter_rejects, Bool.or_eq_true, decide_eq_true_eq,
        Option.isNone_iff_eq_none] at h
      rcases h with hmem | hf
      · simp [process_block, hmem]
      · by_cases hmem : bid ∈ bad <;> simp [process_block, hmem, hf]
  · intro env bad bid tp rest h
    simp only [filter_rejects, Bool.or_eq_false_iff, decide_eq_false_iff_not,
      Option.isNone_eq_false_iff, Option.isSome_iff_exists] at h
    obtain ⟨hmem, t, hf⟩ := h
    exact ⟨t, hf, by simp [process_block, hmem, hf]⟩
  · intro env bad row h
    rcases row with _ | ⟨bid, _ | ⟨tp, rest⟩⟩
    · rfl
    · rfl
    · simp at h
      omega
  · intro env bad bid tp rest hmem hf
    simp [process_block_log, hmem, hf]
  · intro env bad row xs ys h
    simp [process_batch_eq_filterMap, List.filterMap_append, List.filterMap_cons, h]

/-- Witness for C5: the sample row whose throughput field is not
numeric is rejected by the filter and yields no record. -/
theorem c5_filter_rejection_witness :
    process_block envEx [] (["00ff", "abc"] : Row) = none :=
  c5_filter_rejection.1 envEx [] (["00ff", "abc"] : Row) (by decide)

/-- Claim C6: for a non-empty row list and a positive worker count, the
batch size equals the ceiling of total rows over four times the worker
count floored at one, the size is the least count of batches covering
the rows (the two inequalities), and the batches are consecutive slices
whose concatenation is exactly the row list. -/
theorem c6_batch_partition :
    ∀ (rows : List Row) (p : Nat), rows ≠ [] → 0 < p →
      batchSize rows.length p = max 1 (rows.length ⌈/⌉ (4 * p)) ∧
      rows.length ≤ 4 * p * batchSize rows.length p ∧
      4 * p * (batchSize rows.length p - 1) < rows.length ∧
      (chunkList (batchSize rows.length p) rows).flatten = rows := by
  intro rows p hrow hp
  have hd : 0 < 4 * p := by omega
  have ht : 1 ≤ rows.length := List.length_pos.mpr hrow
  have hceil1 : 1 ≤ rows.length ⌈/⌉ (4 * p) := by
    rw [Nat.ceilDiv_eq_add_pred_div]
    exact (Nat.one_le_div_iff hd).mpr (by omega)
  have hbs : batchSize rows.length p = rows.length ⌈/⌉ (4 * p) := by
    have hne : (rows.length + 4 * p - 1) / (4 * p) ≠ 0 := by
      have h2 := hceil1
      rw [Nat.ceilDiv_eq_add_pred_div] at h2
      omega
    simp only [batchSize, Nat.ceilDiv_eq_add_pred_div]
    rw [if_neg hne]
  refine ⟨?_, ?_, ?_, chunkList_flatten _ _⟩
  · rw [hbs, Nat.max_eq_right hceil1]
  · rw [hbs]
    exact (ceilDiv_le_iff_le_mul hd).mp le_rfl
  · rw [hbs]
    by_contra hcon
    push_neg at hcon
    have h2 : rows.length ⌈/⌉ (4 * p) ≤ rows.length ⌈/⌉ (4 * p) - 1 :=
      (ceilDiv_le_iff_le_mul hd).mpr hcon
    omega

/-- Witness for C6 at the sample rows and one worker. -/
theorem c6_batch_partition_witness :
    batchSize rowsEx.length 1 = max 1 (rowsEx.length ⌈/⌉ (4 * 1)) ∧
    rowsEx.length ≤ 4 * 1 * batchSize rowsEx.length 1 ∧
    4 * 1 * (batchSize rowsEx.length 1 - 1) < rowsEx.length ∧
    (chunkList (batchSize rowsEx.length 1) rowsEx).flatten = rowsEx :=
  c6_batch_partition rowsEx 1 (by decide) (by decide)

/-- Claim C7: a missing tokenizer executable makes tokenize_block
return None and print the distinct operator hint (telling how to build
the tool, and printed by no other tokenizer outcome); the affected
record is dropped and a whole run under an absent tokenizer completes
with zero records instead of crashing. -/
theorem c7_tokenizer_absent :
    (∀ (env : Env) (bid : String), env.tokenizerTool bid = ToolOutcome.notFound →
        tokenize_block env bid = none) ∧
    (∀ bid : String,
        Diag.tokenizerNotFoundHint ∈ tokenize_block_log bid ToolOutcome.notFound) ∧
    (diagText Diag.tokenizerNotFoundHint =
        "Tokenizer not found. Make sure to build the tokenizer first.") ∧
    (∀ (bid : String) (code : Int) (out : String),
        Diag.tokenizerNotFoundHint ∉ tokenize_block_log bid (ToolOutcome.run code out)) ∧
    (∀ bid : String,
        Diag.tokenizerNotFoundHint ∉ tokenize_block_log bid ToolOutcome.osError) ∧
    (∀ (env : Env) (bad : List String) (row : Row),
        (∀ bid, env.tokenizerTool bid = ToolOutcome.notFound) →
        process_block env bad row = none) ∧
    (∀ (env : Env) (bad : List String) (rows : List Row) (limit : Option Int) (p : Nat),
        (∀ bid, env.tokenizerTool bid = ToolOutcome.notFound) →
        process_csv_core env bad rows limit p = []) := by
  refine ⟨?_, ?_, rfl, ?_, ?_, ?_, ?_⟩
  · intro env bid h
    simp [tokenize_block, h]
  · intro bid
    simp [tokenize_block_log]
  · intro bid code out
    simp only [tokenize_block_log]
    split <;> simp
  · intro bid
    simp [tokenize_block_log]
  · intro env bad row h
    exact process_block_none_of_tok_absent env bad row h
  · intro env bad rows limit p hall
    simp only [process_csv_core]
    by_cases h1 : (applyLimit limit rows).length = 0
    · rw [if_pos h1]
    rw [if_neg h1]
    by_cases h2 : p = 0
    · rw [if_pos h2]
    rw [if_neg h2]
    apply List.flatten_eq_nil_iff.mpr
    intro l hl
    rw [batch_results, List.mem_map] at hl
    obtain ⟨b, _, rfl⟩ := hl
    exact process_batch_eq_nil_of_all_none env bad b
      (fun row => process_block_none_of_tok_absent env bad row hall)

/-- Witness for C7: a run over the sample rows under the
absent-tokenizer environment completes with zero records. -/
theorem c7_tokenizer_absent_witness :
    process_csv_core envNoTok [] rowsEx none 1 = [] :=
  c7_tokenizer_absent.2.2.2.2.2.2 envNoTok [] rowsEx none 1 (fun _ => rfl)

/-- Claim C8: the pipeline is deterministic — for fixed inputs and
fixed oracle behaviour, any two completion orders of the worker pool
(any two permutations of the indexed per-batch results) deliver the
same flattened dataset, the serialized record lists coincide, and the
delivered dataset is exactly the one process_csv_parallel computes. -/
theorem c8_deterministic_output :
    ∀ (env : Env) (bad : List String) (rows : List Row) (limit : Option Int) (p : Nat)
      (completed1 completed2 : List (Nat × List Record)),
      completed1.Perm (indexed (batch_results env bad rows limit p)) →
      completed2.Perm (indexed (batch_results env bad rows limit p)) →
      (imap_deliver (batch_results env bad rows limit p).length completed1).flatten =
          (imap_deliver (batch_results env bad rows limit p).length completed2).flatten ∧
      saved_records
          ((imap_deliver (batch_results env bad rows limit p).length completed1).flatten) =
        saved_records
          ((imap_deliver (batch_results env bad rows limit p).length completed2).flatten) ∧
      (0 < p → (applyLimit limit rows).length ≠ 0 →
        (imap_deliver (batch_results env bad rows limit p).length completed1).flatten =
          process_csv_core env bad rows limit p) := by
  intro env bad rows limit p completed1 completed2 h1 h2
  rw [imap_deliver_eq _ _ h1, imap_deliver_eq _ _ h2]
  refine ⟨rfl, rfl, ?_⟩
  intro hp hne
  simp only [process_csv_core]
  rw [if_neg hne, if_neg (Nat.pos_iff_ne_zero.mp hp)]

/-- Witness for C8: the dispatch-order completion and a reversed
completion of the sample run both deliver the run dataset. -/
theorem c8_deterministic_output_witness :
    (imap_deliver (batch_results envEx [] rowsEx none 1).length
        (indexed (batch_results envEx [] rowsEx none 1))).flatten =
      process_csv_core envEx [] rowsEx none 1 :=
  (c8_deterministic_output envEx [] rowsEx none 1
      (indexed (batch_results envEx [] rowsEx none 1)) completedEx
      (List.Perm.refl _) (by decide)).2.2 (by decide) (by decide)

/-- Claim C9: the default worker count is the available parallelism
minus one, floored at one; a single-CPU machine and an undeterminable
parallelism both give one. -/
theorem c9_default_workers :
    defaultNumProcesses none = 1 ∧
    (∀ n : Nat, defaultNumProcesses (some n) = max 1 (n - 1)) ∧
    defaultNumProcesses (some 1) = 1 := by
  refine ⟨rfl, ?_, rfl⟩
  intro n
  simp only [defaultNumProcesses]
  split
  · rfl
  · next h =>
    have : n - 1 = 0 := by omega
    simp [this]

/-- Claim C10: a row limit of 0 is falsy, so it keeps every row, as
does a limit of None; only a positive limit truncates the row list to
its first limit rows; consequently a whole run with limit 0 equals the
run with no limit. -/
theorem c10_limit_zero_no_truncation :
    (∀ rows : List Row, applyLimit (some 0) rows = rows) ∧
    (∀ rows : List Row, applyLimit none rows = rows) ∧
    (∀ (rows : List Row) (l : Int), 0 < l →
        applyLimit (some l) rows = rows.take l.toNat) ∧
    (∀ (env : Env) (bad : List String) (rows : List Row) (p : Nat),
        process_csv_core env bad rows (some 0) p = process_csv_core env bad rows none p) := by
  have h0 : ∀ rows : List Row, applyLimit (some 0) rows = rows := by
    intro rows
    simp [applyLimit]
  refine ⟨h0, fun rows => rfl, ?_, ?_⟩
  · intro rows l hl
    have hne : l ≠ 0 := by omega
    simp [applyLimit, hne, pySliceTo, le_of_lt hl]
  · intro env bad rows p
    simp [process_csv_core, batch_results, applyLimit]

/-- Witness for C10: a positive limit of one keeps only the first
sample row. -/
theorem c10_limit_zero_no_truncation_witness :
    applyLimit (some 1) rowsEx = rowsEx.take (1 : Int).toNat :=
  c10_limit_zero_no_truncation.2.2.1 rowsEx 1 (by decide)

end BHive
